import Mathlib

/-!
Verification of the Sierra-Timelapse core pipeline
(`scripts/generate_timelapse_last7days`) against its specification.

The script is embedded shallowly: pure Python helpers become Lean
functions on `List Char` / `Nat` / `Int`; Python `datetime` values become
a `DateTime` structure validated exactly as the `datetime` constructor
validates its fields; exceptions become `Except String`; file-system
traversal, `cv2` decoding/resizing and the astral/pytz libraries are
external collaborators and enter as explicit parameters (a discovery-order
file listing, a `decode` function, a `SolarEnv` of timezone/sunrise
functions).  Floating-point comparisons of the original (`np.std`, pixel
ratios, means, Laplacian variance against thresholds) are modelled by the
corresponding exact rational comparisons, cross-multiplied into integer
arithmetic.
-/

namespace Timelapse

/-! ### Timestamp codec (`extract_ts_from_name`, `ts_to_datetime_utc`) -/

/-- ASCII digit test, the model of the regex character class `\d`. -/
def isDig (c : Char) : Bool := c.isDigit

/-- Numeric value of a digit string, the model of Python `int` on a
slice of digits. -/
def digitsToNat (s : List Char) : Nat :=
  s.foldl (fun a c => a * 10 + (c.toNat - 48)) 0

/-- Try to match the pattern of `m` digits, an underscore, and six digits
at the head of `s`; return the matched token.  Models one anchored
attempt of the regexes `PAT_8` / `PAT_6`. -/
def tokHere (m : Nat) (s : List Char) : Option (List Char) :=
  let d := s.take m
  let u := (s.drop m).take 1
  let t := ((s.drop m).drop 1).take 6
  if d.length = m ∧ d.all isDig = true ∧ u = ['_'] ∧ t.length = 6 ∧
      t.all isDig = true then
    some (d ++ '_' :: t)
  else
    none

/-- Leftmost match of `m` digits + underscore + six digits anywhere in the
name; models `re.search` of `PAT_8` / `PAT_6`. -/
def findTok (m : Nat) : List Char → Option (List Char)
  | [] => none
  | c :: rest =>
    match tokHere m (c :: rest) with
    | some t => some t
    | none => findTok m rest

/-- Result of the 8-digit branch of `extract_ts_from_name`: drop the
century digits of the date part (`date8[2:8]`) and keep the time part. -/
def ts8 (tok : List Char) : List Char :=
  (tok.take 8).drop 2 ++ '_' :: tok.drop 9

/-- Model of `extract_ts_from_name`: search the 8-digit pattern first,
normalising its match to the 6-digit form; otherwise search the 6-digit
pattern; otherwise `none`. -/
def extract_ts_from_name (name : List Char) : Option (List Char) :=
  match findTok 8 name with
  | some tok => some (ts8 tok)
  | none => findTok 6 name

/-- A parsed calendar timestamp, the model of a naive Python
`datetime`. -/
structure DateTime where
  year : Nat
  month : Nat
  day : Nat
  hour : Nat
  minute : Nat
  second : Nat
deriving DecidableEq, Repr

/-- Gregorian leap-year test, as the `datetime` module implements it. -/
def isLeap (y : Nat) : Bool := decide (y % 4 = 0 ∧ (y % 100 ≠ 0 ∨ y % 400 = 0))

/-- Length of a month, as the `datetime` module implements it. -/
def daysInMonth (y m : Nat) : Nat :=
  if m = 2 then (if isLeap y then 29 else 28)
  else if m = 4 ∨ m = 6 ∨ m = 9 ∨ m = 11 then 30
  else 31

/-- Model of `ts_to_datetime_utc`: slice a `YYMMDD_HHMMSS` string, add
2000 to the two-digit year, and build a `datetime`.  The range checks are
those the `datetime` constructor performs; an out-of-range field raises
`ValueError`, modelled as `Except.error`. -/
def ts_to_datetime_utc (ts : List Char) : Except String DateTime :=
  let yy := digitsToNat (ts.take 2)
  let mo := digitsToNat ((ts.drop 2).take 2)
  let dd := digitsToNat ((ts.drop 4).take 2)
  let hh := digitsToNat ((ts.drop 7).take 2)
  let mi := digitsToNat ((ts.drop 9).take 2)
  let ss := digitsToNat ((ts.drop 11).take 2)
  let year := 2000 + yy
  if 1 ≤ mo ∧ mo ≤ 12 ∧ 1 ≤ dd ∧ dd ≤ daysInMonth year mo ∧ hh ≤ 23 ∧
      mi ≤ 59 ∧ ss ≤ 59 then
    Except.ok ⟨year, mo, dd, hh, mi, ss⟩
  else
    Except.error "ValueError: timestamp field out of range"

/-- Instant decoded from a whole filename: extraction followed by
parsing, `none` when no pattern matches or parsing fails. -/
def nameInstant (name : List Char) : Option DateTime :=
  match extract_ts_from_name name with
  | some ts => (ts_to_datetime_utc ts).toOption
  | none => none

/-- Days of full years since 2000-01-01 plus days of full months plus
day-of-month: absolute civil day index of a `DateTime`. -/
def daysBeforeMonth (y m : Nat) : Nat :=
  ((List.range (m - 1)).map (fun k => daysInMonth y (k + 1))).sum

/-- Absolute civil day index of a `DateTime`, days since 2000-01-01. -/
def daysSinceEpoch (dt : DateTime) : Nat :=
  ((List.range (dt.year - 2000)).map
    (fun k => if isLeap (2000 + k) then 366 else 365)).sum
  + daysBeforeMonth dt.year dt.month + (dt.day - 1)

/-- Absolute UTC instant of a `DateTime` in seconds since the 2000-01-01
epoch; the order on valid `DateTime`s under this map is exactly Python's
lexicographic `datetime` order. -/
def dtSec (dt : DateTime) : Int :=
  ((daysSinceEpoch dt) * 86400 + dt.hour * 3600 + dt.minute * 60 + dt.second : Nat)

/-! ### Image gathering (`gather_images`) -/

/-- One catalog entry: a decoded instant together with the file it came
from.  Models the `(utc_dt, path)` pairs of `gather_images`. -/
structure Record where
  dt : DateTime
  name : List Char
deriving DecidableEq, Repr

/-- Sort key of a record: its absolute instant. -/
def dtKey (r : Record) : Int := dtSec r.dt

/-- The recognized image extensions, lowercased, with the dot. -/
def imageExts : List (List Char) :=
  [".jpg".toList, ".jpeg".toList, ".png".toList, ".webp".toList,
   ".bmp".toList, ".tif".toList, ".tiff".toList]

/-- Index just after the last dot of a name, 0 when there is none. -/
def afterLastDot (name : List Char) : Nat :=
  name.foldl (fun (st : Nat × Nat) c =>
    (st.1 + 1, if c = '.' then st.1 else st.2)) (0, 0) |>.2

/-- Lowercased suffix of a file name from its last dot (the model of
`p.suffix.lower()`; empty when the name has no dot). -/
def suffixLower (name : List Char) : List Char :=
  let i := afterLastDot name
  if i = 0 then [] else (name.drop i).map Char.toLower

/-- Extension filter of `gather_images`:
`p.suffix.lower() in exts`. -/
def hasImageExt (name : List Char) : Bool :=
  imageExts.contains (suffixLower name)

/-- The candidate-collection phase of `gather_images`, over the
discovery-order file listing (the concatenation, in traversal order, of
the recursive `images/**` walk and the flat `images_5min` listing).
A name with a matching extension and a pattern match is parsed with
`ts_to_datetime_utc`; an out-of-range field propagates as an error,
exactly as the uncaught `ValueError` aborts the Python run.  A name with
no pattern match is skipped. -/
def collect : List (List Char) → Except String (List Record)
  | [] => Except.ok []
  | f :: fs =>
    if hasImageExt f then
      match extract_ts_from_name f with
      | some ts =>
        match ts_to_datetime_utc ts with
        | Except.ok dt => (collect fs).map (fun rest => ⟨dt, f⟩ :: rest)
        | Except.error e => Except.error e
      | none => collect fs
    else
      collect fs

/-- Stable insertion of a record into a list sorted by `dtKey`: the new
element goes after every element with a strictly smaller key and before
the first element whose key is not smaller. -/
def insertK (x : Record) : List Record → List Record
  | [] => [x]
  | y :: ys => if dtKey y < dtKey x then y :: insertK x ys else x :: y :: ys

/-- Stable sort by `dtKey`, the model of Python's stable
`candidates.sort(key=lambda x: x[0])`. -/
def sortK : List Record → List Record
  | [] => []
  | x :: xs => insertK x (sortK xs)

/-- Model of `gather_images`: collect candidates in discovery order, then
stably sort them by instant. -/
def gather_images (files : List (List Char)) : Except String (List Record) :=
  (collect files).map sortK

/-! ### Window computation (`compute_window_utc`) -/

/-- The external astral/pytz collaborators of `compute_window_utc`:
timezone conversion in both directions (on absolute seconds) and a
sunrise provider mapping a civil day index to a local sunrise instant,
`none` when unavailable. -/
structure SolarEnv where
  toLocal : Int → Int
  toUTC : Int → Int
  sunrise : Int → Option Int

/-- The inclusive rendering window, both bounds in absolute UTC
seconds. -/
structure TimeWindow where
  startUtc : Int
  endUtc : Int
deriving DecidableEq, Repr

/-- Lead-in before sunrise, minutes (`MINUTES_BEFORE_SUNRISE`). -/
def MINUTES_BEFORE_SUNRISE : Nat := 5

/-- Model of `compute_window_utc`: on an empty catalog raise; otherwise
take the civil day seven days before today in local time, ask the
sunrise provider for that day falling back to 06:00 local, subtract the
lead-in, convert to UTC; the end of the window is the maximum instant in
the catalog. -/
def compute_window_utc (env : SolarEnv) (nowUtc : Int)
    (images : List Record) : Except String TimeWindow :=
  match images with
  | [] => Except.error "No images available to compute window."
  | x :: xs =>
    let nowLocal := env.toLocal nowUtc
    let earliestDay := Int.fdiv nowLocal 86400 - 7
    let sunriseLocal := (env.sunrise earliestDay).getD
      (earliestDay * 86400 + 6 * 3600)
    let startLocal := sunriseLocal - (MINUTES_BEFORE_SUNRISE : Int) * 60
    let startUtc := env.toUTC startLocal
    let endUtc := (xs.map dtKey).foldl max (dtKey x)
    Except.ok ⟨startUtc, endUtc⟩

/-! ### Frame-quality classifier (`is_bad_frame`)

A decoded frame is modelled by its grayscale plane (the result of
`cv2.cvtColor(frame, COLOR_BGR2GRAY)`), a rectangular list of rows of
pixel intensities in `0..255`; `cv2.imread` returning `None` is the
`none` case of `Option Frame`.  Every floating-point comparison of the
original is modelled by the exact comparison of the underlying
rationals, cross-multiplied into `Nat`/`Int` arithmetic. -/

/-- Decoded pixel data of one image: rows of grayscale intensities. -/
structure Frame where
  gray : List (List Nat)
deriving DecidableEq, Repr

def Frame.h (f : Frame) : Nat := f.gray.length

def Frame.w (f : Frame) : Nat := (f.gray.headD []).length

/-- Pixel count `total = h*w` of the source. -/
def Frame.total (f : Frame) : Nat := f.h * f.w

def Frame.sumPix (f : Frame) : Nat := (f.gray.map List.sum).sum

def Frame.sumSq (f : Frame) : Nat :=
  (f.gray.map (fun r => (r.map (fun v => v * v)).sum)).sum

def Frame.countLe (f : Frame) (t : Nat) : Nat :=
  (f.gray.map (fun r => r.countP (fun v => decide (v ≤ t)))).sum

def Frame.countGe (f : Frame) (t : Nat) : Nat :=
  (f.gray.map (fun r => r.countP (fun v => decide (t ≤ v)))).sum

def Frame.countEq (f : Frame) (b : Nat) : Nat :=
  (f.gray.map (fun r => r.countP (fun v => decide (v = b)))).sum

/-- Largest bin of the 256-bin grayscale histogram (`hist.max()`). -/
def Frame.maxBin (f : Frame) : Nat :=
  ((List.range 256).map (fun b => f.countEq b)).foldl max 0

/-- Sum of the left half `gray[:, :w//2]`. -/
def Frame.sumLeft (f : Frame) : Nat :=
  (f.gray.map (fun r => (r.take (f.w / 2)).sum)).sum

/-- Sum of the right half `gray[:, w//2:]`. -/
def Frame.sumRight (f : Frame) : Nat :=
  (f.gray.map (fun r => (r.drop (f.w / 2)).sum)).sum

/-- Pixel lookup with `BORDER_REFLECT_101` (the `cv2` default border):
index `-i` reflects to `i`, index `n` reflects to `n-2`. -/
def reflect101 (n : Nat) (i : Int) : Nat :=
  if i < 0 then (-i).toNat
  else if (n : Int) ≤ i then n - 2 - (i.toNat - n)
  else i.toNat

/-- Border-reflected pixel access. -/
def Frame.at2 (f : Frame) (i j : Int) : Int :=
  ((f.gray.getD (reflect101 f.h i) []).getD (reflect101 f.w j) 0 : Nat)

/-- One response of the 3x3 Laplacian kernel `[[0,1,0],[1,-4,1],[0,1,0]]`
used by `cv2.Laplacian` with the default aperture. -/
def Frame.lapAt (f : Frame) (i j : Nat) : Int :=
  f.at2 ((i : Int) - 1) j + f.at2 ((i : Int) + 1) j +
  f.at2 i ((j : Int) - 1) + f.at2 i ((j : Int) + 1) - 4 * f.at2 i j

def Frame.sumLap (f : Frame) : Int :=
  ((List.range f.h).map (fun i =>
    ((List.range f.w).map (fun j => f.lapAt i j)).sum)).sum

def Frame.sumLapSq (f : Frame) : Int :=
  ((List.range f.h).map (fun i =>
    ((List.range f.w).map (fun j => f.lapAt i j * f.lapAt i j)).sum)).sum

/-- Rejection reasons of `is_bad_frame`; the numeric detail interpolated
into the Python reason strings is formatting only and is dropped. -/
inductive Reason where
  | unreadable
  | too_small
  | low_std
  | mostly_black
  | mostly_white
  | dominant_bin
  | half_blank
  | half_white
  | excessive_lap
deriving DecidableEq, Repr

/-- Threshold `MIN_DIM`. -/
def MIN_DIM : Nat := 100
/-- Threshold `MIN_STD`. -/
def MIN_STD : Nat := 8
/-- Threshold `BLACK_LEVEL`. -/
def BLACK_LEVEL : Nat := 15
/-- Threshold `WHITE_LEVEL`. -/
def WHITE_LEVEL : Nat := 240
/-- Threshold `PERCENT_BLACK = 0.55`, as the fraction `55/100`. -/
def PERCENT_BLACK_PCT : Nat := 55
/-- Threshold `PERCENT_WHITE = 0.55`, as the fraction `55/100`. -/
def PERCENT_WHITE_PCT : Nat := 55
/-- Threshold `DOMINANT_BIN_RATIO = 0.55`, as the fraction `55/100`. -/
def DOMINANT_BIN_PCT : Nat := 55
/-- Threshold `HALF_DIFF_THRESH`. -/
def HALF_DIFF_THRESH : Nat := 60
/-- Threshold `LAPL_VAR_MAX = 1e6`. -/
def LAPL_VAR_MAX : Nat := 1000000

/-- Check 3: `np.std(gray) < MIN_STD`, i.e. the variance
`(n*S2 - S1^2)/n^2` is below `MIN_STD^2`, cross-multiplied. -/
def lowStdCheck (f : Frame) : Bool :=
  decide ((f.total * f.sumSq : Int) - (f.sumPix : Int) ^ 2
    < (MIN_STD : Int) ^ 2 * (f.total : Int) ^ 2)

/-- Check 4: `black_ratio >= PERCENT_BLACK`, cross-multiplied. -/
def blackCheck (f : Frame) : Bool :=
  decide (PERCENT_BLACK_PCT * f.total ≤ 100 * f.countLe BLACK_LEVEL)

/-- Check 5: `white_ratio >= PERCENT_WHITE`, cross-multiplied. -/
def whiteCheck (f : Frame) : Bool :=
  decide (PERCENT_WHITE_PCT * f.total ≤ 100 * f.countGe WHITE_LEVEL)

/-- Check 6: `hist.max()/total >= DOMINANT_BIN_RATIO`,
cross-multiplied. -/
def domBinCheck (f : Frame) : Bool :=
  decide (DOMINANT_BIN_PCT * f.total ≤ 100 * f.maxBin)

/-- Pixel count of the left half. -/
def Frame.nLeft (f : Frame) : Nat := f.h * (f.w / 2)

/-- Pixel count of the right half. -/
def Frame.nRight (f : Frame) : Nat := f.h * (f.w - f.w / 2)

/-- Check 7 guard: `abs(left_mean - right_mean) > HALF_DIFF_THRESH`,
cross-multiplied over the common denominator `nLeft*nRight`. -/
def halfDiffCheck (f : Frame) : Bool :=
  decide ((HALF_DIFF_THRESH : Int) * ((f.nLeft : Int) * (f.nRight : Int))
    < ((f.sumLeft : Int) * (f.nRight : Int)
       - (f.sumRight : Int) * (f.nLeft : Int)).natAbs)

/-- Check 7 first arm: either half mean at most `BLACK_LEVEL + 10`. -/
def halfBlankCheck (f : Frame) : Bool :=
  decide (f.sumLeft ≤ (BLACK_LEVEL + 10) * f.nLeft ∨
    f.sumRight ≤ (BLACK_LEVEL + 10) * f.nRight)

/-- Check 7 second arm: either half mean at least `WHITE_LEVEL - 10`. -/
def halfWhiteCheck (f : Frame) : Bool :=
  decide ((WHITE_LEVEL - 10) * f.nLeft ≤ f.sumLeft ∨
    (WHITE_LEVEL - 10) * f.nRight ≤ f.sumRight)

/-- Check 8: Laplacian variance `> LAPL_VAR_MAX`, cross-multiplied. -/
def lapCheck (f : Frame) : Bool :=
  decide ((LAPL_VAR_MAX : Int) * (f.total : Int) ^ 2
    < (f.total : Int) * f.sumLapSq - f.sumLap ^ 2)

/-- Model of `is_bad_frame`: the fixed ordered sequence of checks with
short-circuit at the first failure; `(false, none)` is the accepting
`(False, "")` of the source.  The half-difference guard that fires with
neither a near-black nor a near-white half falls through to the
Laplacian check, as in the source. -/
def is_bad_frame : Option Frame → Bool × Option Reason
  | none => (true, some Reason.unreadable)
  | some f =>
    if f.h < MIN_DIM ∨ f.w < MIN_DIM then (true, some Reason.too_small)
    else if lowStdCheck f then (true, some Reason.low_std)
    else if blackCheck f then (true, some Reason.mostly_black)
    else if whiteCheck f then (true, some Reason.mostly_white)
    else if domBinCheck f then (true, some Reason.dominant_bin)
    else
      match
        (if halfDiffCheck f then
          (if halfBlankCheck f then some Reason.half_blank
           else if halfWhiteCheck f then some Reason.half_white
           else none)
         else none) with
      | some r => (true, some r)
      | none =>
        if lapCheck f then (true, some Reason.excessive_lap)
        else (false, none)

/-! ### Video assembly and the `main` driver -/

/-- The init-writer scan of `main`: the first record of the window whose
decode is accepted by the classifier, `none` when no record in the
window is accepted. -/
def firstGood (decode : List Char → Option Frame) :
    List Record → Option Frame
  | [] => none
  | r :: rs =>
    match decode r.name with
    | none => firstGood decode rs
    | some f =>
      if (is_bad_frame (some f)).1 then firstGood decode rs else some f

/-- Running state of the assembly loop: the two counters, the written
frames (`writer.write`) newest-last as `written`, and the instants of
used frames (`used_times`). -/
structure AsmOut where
  used : Nat
  skipped : Nat
  written : List Frame
  usedTimes : List Int
deriving Repr

/-- Model of the assembly loop of `main`: decode each windowed record in
order, classify it, count a skip on rejection, otherwise resize to the
fixed output dimensions when they differ (`cv2.resize`, an external
collaborator passed as `resize`) and write.  -/
def assembleLoop (decode : List Char → Option Frame)
    (resize : Frame → Nat → Nat → Frame) (hh ww : Nat) :
    List Record → AsmOut
  | [] => ⟨0, 0, [], []⟩
  | r :: rs =>
    let rest := assembleLoop decode resize hh ww rs
    let f := decode r.name
    if (is_bad_frame f).1 then
      { rest with skipped := rest.skipped + 1 }
    else
      let g := f.getD ⟨[]⟩
      let g2 := if (g.h, g.w) ≠ (hh, ww) then resize g hh ww else g
      { used := rest.used + 1, skipped := rest.skipped,
        written := g2 :: rest.written, usedTimes := dtKey r :: rest.usedTimes }

/-- Everything one run of the script observes from the outside world:
the discovery-order file listing, the `cv2.imread` decoder, the
`cv2.resize` collaborator, the astral/pytz environment, and the clock. -/
structure World where
  files : List (List Char)
  decode : List Char → Option Frame
  resize : Frame → Nat → Nat → Frame
  env : SolarEnv
  now : Int

/-- The exit of one run of `main` that terminates without an uncaught
exception: one of the three diagnostic aborts, the (unreachable with a
deterministic decoder) post-loop abort, or success. -/
inductive Outcome where
  | noInput
  | noWindow
  | noValid
  | noUsable
  | success (used skipped : Nat)
deriving DecidableEq, Repr

/-- Process exit code of an outcome: `main` returns 1 on each diagnostic
abort and 0 on success. -/
def exitCode : Outcome → Nat
  | .success _ _ => 0
  | _ => 1

/-- Model of `main`: gather (an uncaught parse exception propagates),
abort on an empty catalog, compute the window, abort on an empty
windowed catalog, scan for the first good frame aborting when there is
none, then run the assembly loop and abort if it used nothing. -/
def main (w : World) : Except String Outcome :=
  match gather_images w.files with
  | Except.error e => Except.error e
  | Except.ok images =>
    if images.isEmpty then Except.ok Outcome.noInput
    else
      match compute_window_utc w.env w.now images with
      | Except.error e => Except.error e
      | Except.ok tw =>
        let window := images.filter
          (fun r => decide (tw.startUtc ≤ dtKey r ∧ dtKey r ≤ tw.endUtc))
        if window.isEmpty then Except.ok Outcome.noWindow
        else
          match firstGood w.decode window with
          | none => Except.ok Outcome.noValid
          | some first =>
            let res := assembleLoop w.decode w.resize first.h first.w window
            if res.used = 0 then Except.ok Outcome.noUsable
            else Except.ok (Outcome.success res.used res.skipped)

/-! ### Concrete runs used to instantiate the claims -/

/-- A solar environment with the identity timezone and an unavailable
sunrise provider, exercising the 06:00 fallback of the source. -/
def plainEnv : SolarEnv := ⟨id, id, fun _ => none⟩

/-- A catalog holding a single capture from 2020-01-01. -/
def staleImgs : List Record :=
  [⟨⟨2020, 1, 1, 0, 0, 0⟩, "200101_000000.jpg".toList⟩]

/-- A reference clock at 2026-01-01 00:00:00 UTC. -/
def now2026 : Int := dtSec ⟨2026, 1, 1, 0, 0, 0⟩

/-! ### Helper lemmas -/

lemma le_foldl_max (l : List Int) (a : Int) : a ≤ l.foldl max a := by
  induction l generalizing a with
  | nil => exact le_refl a
  | cons x xs ih => exact le_trans (le_max_left a x) (ih (max a x))

lemma mem_le_foldl_max (l : List Int) (a b : Int) (h : b ∈ l) :
    b ≤ l.foldl max a := by
  induction l generalizing a with
  | nil => cases h
  | cons x xs ih =>
    rcases List.mem_cons.mp h with rfl | h2
    · exact le_trans (le_max_right a b) (le_foldl_max xs (max a b))
    · exact ih (max a x) h2

lemma foldl_max_cases (l : List Int) (a : Int) :
    l.foldl max a = a ∨ l.foldl max a ∈ l := by
  induction l generalizing a with
  | nil => left; rfl
  | cons x xs ih =>
    rw [List.foldl_cons]
    rcases ih (max a x) with h | h
    · rcases max_choice a x with hm | hm
      · left; rw [h, hm]
      · right; rw [h, hm]; exact List.mem_cons_self x xs
    · right; exact List.mem_cons_of_mem x h

/-! ### Claims C1 and C4: the computed window -/

/-- C1 (counterexample).  The spec claims `start ≤ end` for every
non-empty catalog and every reference time, but `compute_window_utc`
derives `start` from the clock alone and `end` from the catalog alone:
with the single capture of 2020-01-01 in the catalog and the clock at
2026-01-01 the window has `end < start`. -/
theorem C1_counterexample :
    compute_window_utc plainEnv now2026 staleImgs =
      Except.ok ⟨819957300, 631152000⟩ ∧ (631152000 : Int) < 819957300 := by
  exact ⟨rfl, by norm_num⟩

/-- C1 (amended).  Whenever the non-empty catalog contains at least one
record whose instant is not earlier than the computed start — in
particular whenever a capture from the trailing seven-day span is
present — the window satisfies `start ≤ end`. -/
theorem C1_start_le_end_amended (env : SolarEnv) (nowUtc : Int)
    (images : List Record) (w : TimeWindow)
    (h : compute_window_utc env nowUtc images = Except.ok w)
    (hr : ∃ r ∈ images, w.startUtc ≤ dtKey r) : w.startUtc ≤ w.endUtc := by
  rcases images with _ | ⟨x, xs⟩
  · exact absurd h (by simp [compute_window_utc])
  · have hw : w = ⟨env.toUTC (((env.sunrise (Int.fdiv (env.toLocal nowUtc) 86400 - 7)).getD
        ((Int.fdiv (env.toLocal nowUtc) 86400 - 7) * 86400 + 6 * 3600))
        - (MINUTES_BEFORE_SUNRISE : Int) * 60),
        (xs.map dtKey).foldl max (dtKey x)⟩ := by
      simpa [compute_window_utc] using h.symm
    rcases hr with ⟨r, hrm, hrs⟩
    rcases List.mem_cons.mp hrm with rfl | hrx
    · exact le_trans hrs (by rw [hw]; exact le_foldl_max _ _)
    · refine le_trans hrs ?_
      rw [hw]
      exact mem_le_foldl_max _ _ _ (List.mem_map_of_mem dtKey hrx)

/-- C1 (witness): a catalog with a capture inside the trailing-seven-day
span of the 2026 clock satisfies the amended invariant. -/
theorem C1_witness :
    compute_window_utc plainEnv now2026
        [⟨⟨2025, 12, 31, 12, 0, 0⟩, "251231_120000.jpg".toList⟩] =
      Except.ok ⟨819957300, 820497600⟩ ∧ (819957300 : Int) ≤ 820497600 := by
  have h : compute_window_utc plainEnv now2026
      [⟨⟨2025, 12, 31, 12, 0, 0⟩, "251231_120000.jpg".toList⟩] =
      Except.ok ⟨819957300, 820497600⟩ := rfl
  refine ⟨h, ?_⟩
  have := C1_start_le_end_amended plainEnv now2026
    [⟨⟨2025, 12, 31, 12, 0, 0⟩, "251231_120000.jpg".toList⟩]
    ⟨819957300, 820497600⟩ h
    ⟨⟨⟨2025, 12, 31, 12, 0, 0⟩, "251231_120000.jpg".toList⟩, by
      exact List.mem_singleton.mpr rfl, by decide⟩
  exact this

/-- C4: for a non-empty catalog the window end is exactly the maximum
instant present in the catalog (an upper bound that is attained), and it
does not depend on the reference time. -/
theorem C4_end_is_catalog_max (env : SolarEnv) (nowUtc : Int)
    (images : List Record) (w : TimeWindow)
    (h : compute_window_utc env nowUtc images = Except.ok w) :
    (∀ r ∈ images, dtKey r ≤ w.endUtc) ∧
    (∃ r ∈ images, dtKey r = w.endUtc) ∧
    (∀ now2 w2, compute_window_utc env now2 images = Except.ok w2 →
      w2.endUtc = w.endUtc) := by
  rcases images with _ | ⟨x, xs⟩
  · exact absurd h (by simp [compute_window_utc])
  · have hend : w.endUtc = (xs.map dtKey).foldl max (dtKey x) := by
      have := h.symm
      simp only [compute_window_utc] at this
      rw [Except.ok.injEq] at this
      rw [this]
    refine ⟨?_, ?_, ?_⟩
    · intro r hrm
      rcases List.mem_cons.mp hrm with rfl | hrx
      · rw [hend]; exact le_foldl_max _ _
      · rw [hend]; exact mem_le_foldl_max _ _ _ (List.mem_map_of_mem dtKey hrx)
    · rcases foldl_max_cases (xs.map dtKey) (dtKey x) with hc | hc
      · exact ⟨x, List.mem_cons_self x xs, by rw [hend, hc]⟩
      · rcases List.mem_map.mp hc with ⟨r, hrm, hrk⟩
        exact ⟨r, List.mem_cons_of_mem x hrm, by rw [hend, hrk]⟩
    · intro now2 w2 h2
      have hend2 : w2.endUtc = (xs.map dtKey).foldl max (dtKey x) := by
        have := h2.symm
        simp only [compute_window_utc] at this
        rw [Except.ok.injEq] at this
        rw [this]
      rw [hend2, hend]

/-- C4 (witness): on the concrete stale catalog the window end is the
catalog maximum, whatever the clock. -/
theorem C4_witness :
    compute_window_utc plainEnv now2026 staleImgs =
      Except.ok ⟨819957300, 631152000⟩ ∧
    (∀ r ∈ staleImgs, dtKey r ≤ (631152000 : Int)) := by
  have h : compute_window_utc plainEnv now2026 staleImgs =
      Except.ok ⟨819957300, 631152000⟩ := rfl
  exact ⟨h, (C4_end_is_catalog_max plainEnv now2026 staleImgs _ h).1⟩

/-! ### Claim C5: the assembly loop counters -/

/-- C5: every record of the windowed catalog is attempted exactly once
by the assembly loop and increments exactly one of the two counters, so
`used + skipped` equals the number of windowed records. -/
theorem C5_used_plus_skipped_eq_length (decode : List Char → Option Frame)
    (resize : Frame → Nat → Nat → Frame) (hh ww : Nat)
    (window : List Record) :
    (assembleLoop decode resize hh ww window).used +
      (assembleLoop decode resize hh ww window).skipped = window.length := by
  induction window with
  | nil => rfl
  | cons r rs ih =>
    simp only [assembleLoop]
    split
    · simpa using by omega
    · simpa using by omega

/-! ### Claim C9: out-of-range timestamp fields abort gathering -/

/-- C9: a filename whose embedded token matches the pattern but carries
an out-of-range field (month 13) raises out of `ts_to_datetime_utc` and
aborts the whole gathering run — even though a later file is perfectly
valid — while a name with no pattern match at all is merely skipped. -/
theorem C9_invalid_date_aborts :
    gather_images ["251300_120000.jpg".toList, "251025_120000.jpg".toList] =
      Except.error "ValueError: timestamp field out of range" ∧
    gather_images ["noTimestampHere.jpg".toList] = Except.ok [] := by
  exact ⟨rfl, rfl⟩

/-! ### Claims C3 and C8: the classifier -/

/-- A 100x100 frame, 60 rows of black over 40 rows of white: large
enough, textured enough, and 60 percent black. -/
def frBlack60 : Frame :=
  ⟨List.replicate 60 (List.replicate 100 0) ++
    List.replicate 40 (List.replicate 100 255)⟩

/-- A 100x100 frame with exactly 55 percent of its pixels black: the
black fraction equals `PERCENT_BLACK` exactly. -/
def frBlack55 : Frame :=
  ⟨List.replicate 55 (List.replicate 100 0) ++
    List.replicate 45 (List.replicate 100 255)⟩

/-- C3: the checks run in their fixed order and stop at the first
failure, so a frame that reaches the black check and fires it is
rejected with the single reason `mostly_black` — whatever its Laplacian
variance, since the Laplacian check is never reached.  This entails the
spec's instance: a frame both near-black and with Laplacian variance
above the bound reports `mostly_black`, not `excessive_lap`. -/
theorem C3_black_fires_before_lap (f : Frame)
    (h1 : MIN_DIM ≤ f.h) (h2 : MIN_DIM ≤ f.w)
    (h3 : lowStdCheck f = false) (h4 : blackCheck f = true) :
    is_bad_frame (some f) = (true, some Reason.mostly_black) := by
  have hdim : ¬ (f.h < MIN_DIM ∨ f.w < MIN_DIM) := by omega
  simp [is_bad_frame, hdim, h3, h4]

set_option maxRecDepth 400000 in
/-- C3 (witness): the concrete 60-percent-black frame passes the size
and contrast checks and is rejected as `mostly_black`. -/
theorem C3_witness :
    (MIN_DIM ≤ frBlack60.h ∧ MIN_DIM ≤ frBlack60.w ∧
      lowStdCheck frBlack60 = false ∧ blackCheck frBlack60 = true) ∧
    is_bad_frame (some frBlack60) = (true, some Reason.mostly_black) :=
  ⟨⟨by decide, by decide, by decide, by decide⟩,
    C3_black_fires_before_lap frBlack60 (by decide) (by decide)
      (by decide) (by decide)⟩

set_option maxRecDepth 400000 in
/-- C8 (counterexample).  The spec says a frame whose black fraction
equals the configured fraction exactly is not rejected by the black
check; the source compares with `>=`, so the 55-percent-black frame,
sitting exactly on the threshold, is rejected with `mostly_black`. -/
theorem C8_counterexample :
    PERCENT_BLACK_PCT * frBlack55.total = 100 * frBlack55.countLe BLACK_LEVEL ∧
    is_bad_frame (some frBlack55) = (true, some Reason.mostly_black) := by
  exact ⟨by decide, by decide⟩

/-- C8 (amended): a frame that reaches the black check is rejected with
reason `mostly_black` exactly when its black-pixel fraction is at or
above the configured fraction; equality rejects. -/
theorem C8_black_threshold_at_or_above (f : Frame)
    (h1 : MIN_DIM ≤ f.h) (h2 : MIN_DIM ≤ f.w)
    (h3 : lowStdCheck f = false) :
    (is_bad_frame (some f)).2 = some Reason.mostly_black ↔
      PERCENT_BLACK_PCT * f.total ≤ 100 * f.countLe BLACK_LEVEL := by
  have hdim : ¬ (f.h < MIN_DIM ∨ f.w < MIN_DIM) := by omega
  constructor
  · intro h
    by_contra hc
    have hb : blackCheck f = false := by
      simp [blackCheck, hc]
    cases hw : whiteCheck f <;> cases hdo : domBinCheck f <;>
      cases hhd : halfDiffCheck f <;> cases hhb : halfBlankCheck f <;>
      cases hhw : halfWhiteCheck f <;> cases hl : lapCheck f <;>
      simp [is_bad_frame, hdim, h3, hb, hw, hdo, hhd, hhb, hhw, hl] at h
  · intro hle
    have hb : blackCheck f = true := by simp [blackCheck, hle]
    simp [is_bad_frame, hdim, h3, hb]

set_option maxRecDepth 400000 in
/-- C8 (witness): the threshold-equality frame instantiates the amended
equivalence. -/
theorem C8_witness :
    (MIN_DIM ≤ frBlack55.h ∧ MIN_DIM ≤ frBlack55.w ∧
      lowStdCheck frBlack55 = false) ∧
    ((is_bad_frame (some frBlack55)).2 = some Reason.mostly_black ↔
      PERCENT_BLACK_PCT * frBlack55.total ≤
        100 * frBlack55.countLe BLACK_LEVEL) :=
  ⟨⟨by decide, by decide, by decide⟩,
    C8_black_threshold_at_or_above frBlack55 (by decide) (by decide)
      (by decide)⟩

/-! ### Claim C2: exit behaviour of `main` -/

lemma used_pos_of_firstGood (decode : List Char → Option Frame)
    (resize : Frame → Nat → Nat → Frame) (hh ww : Nat) :
    ∀ (l : List Record) (f : Frame), firstGood decode l = some f →
      1 ≤ (assembleLoop decode resize hh ww l).used := by
  intro l
  induction l with
  | nil => intro f h; simp [firstGood] at h
  | cons r rs ih =>
    intro f h
    cases hd : decode r.name with
    | none =>
      simp only [firstGood, hd] at h
      have := ih f h
      simpa [assembleLoop, hd, is_bad_frame] using this
    | some g =>
      cases hbad : (is_bad_frame (some g)).1 with
      | true =>
        simp only [firstGood, hd, hbad, if_true] at h
        have := ih f h
        simpa [assembleLoop, hd, hbad] using this
      | false =>
        simp [assembleLoop, hd, hbad]

/-- A world whose only file carries a pattern-matching token with an
out-of-range month. -/
def badWorld : World :=
  ⟨["251300_120000.jpg".toList], fun _ => none, fun f _ _ => f, plainEnv, 0⟩

/-- A world with no input files at all. -/
def emptyWorld : World :=
  ⟨[], fun _ => none, fun f _ _ => f, plainEnv, 0⟩

/-- C2 (counterexample).  The spec says exactly three conditions produce
a non-zero exit; but a pattern-matching filename with an out-of-range
field aborts `main` with an uncaught exception — a fourth non-zero exit
that is none of the three diagnostics. -/
theorem C2_counterexample :
    main badWorld = Except.error "ValueError: timestamp field out of range" :=
  rfl

/-- C2 (amended): provided gathering raises no exception (every
pattern-matching filename carries in-range fields), the run exits 0
exactly when at least one frame was written, and every non-zero exit is
one of the three diagnostics: no input, nothing in the window, nothing
accepted.  The post-loop `used == 0` abort is unreachable because the
init scan already found an accepted frame. -/
theorem C2_exit_taxonomy_amended (w : World) (o : Outcome)
    (h : main w = Except.ok o) :
    (exitCode o = 0 ↔ ∃ u s, o = Outcome.success u s ∧ 1 ≤ u) ∧
    (exitCode o ≠ 0 →
      o = Outcome.noInput ∨ o = Outcome.noWindow ∨ o = Outcome.noValid) := by
  unfold main at h
  split at h
  · exact absurd h (by simp)
  · split at h
    · cases h
      refine ⟨by simp [exitCode], fun _ => Or.inl rfl⟩
    · split at h
      · exact absurd h (by simp)
      · simp only [] at h
        split at h
        · cases h
          refine ⟨by simp [exitCode], fun _ => Or.inr (Or.inl rfl)⟩
        · split at h
          · cases h
            refine ⟨by simp [exitCode], fun _ => Or.inr (Or.inr rfl)⟩
          · rename_i first hfg
            split at h
            · rename_i hz
              exact absurd
                (used_pos_of_firstGood w.decode w.resize first.h first.w _ _ hfg)
                (by omega)
            · rename_i hz
              cases h
              constructor
              · simp only [exitCode, true_iff]
                exact ⟨_, _, rfl, by omega⟩
              · intro hzero; exact absurd rfl hzero

/-- C2 (witness): the empty world reaches the no-input diagnostic, whose
exit code is non-zero and which writes no frame. -/
theorem C2_witness :
    main emptyWorld = Except.ok Outcome.noInput ∧
    (exitCode Outcome.noInput = 0 ↔
      ∃ u s, Outcome.noInput = Outcome.success u s ∧ 1 ≤ u) := by
  have h : main emptyWorld = Except.ok Outcome.noInput := rfl
  exact ⟨h, (C2_exit_taxonomy_amended emptyWorld Outcome.noInput h).1⟩

/-! ### Claim C7: the catalog is sorted and the sort is stable -/

lemma mem_insertK (x z : Record) (l : List Record) (h : z ∈ insertK x l) :
    z = x ∨ z ∈ l := by
  induction l with
  | nil => simpa [insertK] using h
  | cons y ys ih =>
    unfold insertK at h
    split at h
    · rcases List.mem_cons.mp h with rfl | h2
      · right; exact List.mem_cons_self _ _
      · rcases ih h2 with h3 | h3
        · left; exact h3
        · right; exact List.mem_cons_of_mem _ h3
    · rcases List.mem_cons.mp h with rfl | h2
      · left; rfl
      · right; exact h2

lemma pairwise_insertK (x : Record) (l : List Record)
    (h : l.Pairwise (fun a b => dtKey a ≤ dtKey b)) :
    (insertK x l).Pairwise (fun a b => dtKey a ≤ dtKey b) := by
  induction l with
  | nil => simp [insertK]
  | cons y ys ih =>
    rw [List.pairwise_cons] at h
    obtain ⟨hy, hys⟩ := h
    unfold insertK
    split
    · rename_i hlt
      refine List.Pairwise.cons ?_ (ih hys)
      intro z hz
      rcases mem_insertK x z ys hz with rfl | hz2
      · exact le_of_lt hlt
      · exact hy z hz2
    · rename_i hge
      refine List.Pairwise.cons ?_ (List.Pairwise.cons hy hys)
      intro z hz
      rcases List.mem_cons.mp hz with rfl | hz2
      · exact le_of_not_lt hge
      · exact le_trans (le_of_not_lt hge) (hy z hz2)

lemma sortK_pairwise (l : List Record) :
    (sortK l).Pairwise (fun a b => dtKey a ≤ dtKey b) := by
  induction l with
  | nil => simp [sortK]
  | cons x xs ih => exact pairwise_insertK x (sortK xs) ih

lemma filter_insertK (p : Record → Bool) (x : Record) (l : List Record)
    (hp : ∀ a b, p a = true → p b = true → dtKey a = dtKey b) :
    (insertK x l).filter p = ((x :: l).filter p) := by
  induction l with
  | nil => rfl
  | cons y ys ih =>
    unfold insertK
    split
    · rename_i hlt
      cases hy : p y with
      | false =>
        cases hx : p x with
        | false => simp [List.filter_cons, hy, hx, ih]
        | true => simp [List.filter_cons, hy, hx, ih]
      | true =>
        cases hx : p x with
        | false => simp [List.filter_cons, hy, hx, ih]
        | true => exact absurd (hp y x hy hx) (ne_of_lt hlt)
    · rfl

lemma filter_sortK (p : Record → Bool) (l : List Record)
    (hp : ∀ a b, p a = true → p b = true → dtKey a = dtKey b) :
    (sortK l).filter p = l.filter p := by
  induction l with
  | nil => rfl
  | cons x xs ih =>
    rw [sortK, filter_insertK p x (sortK xs) hp]
    simp [List.filter_cons, ih]

/-- C7: gathering sorts the discovery-order candidates with a stable
sort: the catalog is non-decreasing by instant, and for every instant
the records carrying it keep their discovery order. -/
theorem C7_gather_sorted_stable (files : List (List Char))
    (cands : List Record) (h : collect files = Except.ok cands) :
    gather_images files = Except.ok (sortK cands) ∧
    (sortK cands).Pairwise (fun a b => dtKey a ≤ dtKey b) ∧
    ∀ d : DateTime, (sortK cands).filter (fun r => decide (r.dt = d)) =
      cands.filter (fun r => decide (r.dt = d)) := by
  refine ⟨by simp [gather_images, h, Except.map], sortK_pairwise cands, ?_⟩
  intro d
  refine filter_sortK _ cands ?_
  intro a b ha hb
  have ha2 : a.dt = d := of_decide_eq_true ha
  have hb2 : b.dt = d := of_decide_eq_true hb
  rw [dtKey, dtKey, ha2, hb2]

/-- Discovery-order listing with two files sharing one instant (under
different prefixes) preceded by a later capture. -/
def stableFiles : List (List Char) :=
  ["251026_000000.png".toList, "b_251025_120000.jpg".toList,
   "a_251025_120000.jpg".toList]

/-- The candidate list `collect` produces for `stableFiles`. -/
def stableCands : List Record :=
  [⟨⟨2025, 10, 26, 0, 0, 0⟩, "251026_000000.png".toList⟩,
   ⟨⟨2025, 10, 25, 12, 0, 0⟩, "b_251025_120000.jpg".toList⟩,
   ⟨⟨2025, 10, 25, 12, 0, 0⟩, "a_251025_120000.jpg".toList⟩]

/-- C7 (witness): on the concrete listing the duplicate-instant records
keep their discovery order after sorting. -/
theorem C7_witness :
    collect stableFiles = Except.ok stableCands ∧
    (sortK stableCands).filter
        (fun r => decide (r.dt = ⟨2025, 10, 25, 12, 0, 0⟩)) =
      stableCands.filter
        (fun r => decide (r.dt = ⟨2025, 10, 25, 12, 0, 0⟩)) := by
  have h : collect stableFiles = Except.ok stableCands := rfl
  exact ⟨h,
    (C7_gather_sorted_stable stableFiles stableCands h).2.2 ⟨2025, 10, 25, 12, 0, 0⟩⟩

/-! ### Claims C6 and C10: the timestamp codec -/

lemma year_of_ok (ts : List Char) (dt : DateTime)
    (h : ts_to_datetime_utc ts = Except.ok dt) :
    dt.year = 2000 + digitsToNat (ts.take 2) := by
  unfold ts_to_datetime_utc at h
  simp only [] at h
  split at h
  · rw [Except.ok.injEq] at h
    rw [← h]
  · exact absurd h (by simp)

lemma exists_six (l : List Char) (h : l.length = 6) :
    ∃ a b c d e f, l = [a, b, c, d, e, f] := by
  rcases l with _ | ⟨a, l⟩; · exact absurd h (by simp)
  rcases l with _ | ⟨b, l⟩; · exact absurd h (by simp)
  rcases l with _ | ⟨c, l⟩; · exact absurd h (by simp)
  rcases l with _ | ⟨d, l⟩; · exact absurd h (by simp)
  rcases l with _ | ⟨e, l⟩; · exact absurd h (by simp)
  rcases l with _ | ⟨f, l⟩; · exact absurd h (by simp)
  rcases l with _ | ⟨g, l⟩
  · exact ⟨a, b, c, d, e, f, rfl⟩
  · exact absurd h (by simp)

/-- A 6+6 token alone can never match the 8-digit pattern: every window
of eight characters crosses the underscore or runs off the end. -/
lemma findTok8_none (u v : List Char) (hu : u.length = 6)
    (hv : v.length = 6) : findTok 8 (u ++ '_' :: v) = none := by
  obtain ⟨a, b, c, d, e, f, rfl⟩ := exists_six u hu
  obtain ⟨p, q, r, s, t, w, rfl⟩ := exists_six v hv
  have hund : isDig '_' = false := rfl
  simp [findTok, tokHere, hund]

/-- A 6+6 all-digit token matches the 6-digit pattern at its head, and
the match is the token itself. -/
lemma findTok6_self (u v : List Char) (hu : u.length = 6)
    (hud : u.all isDig = true) (hv : v.length = 6)
    (hvd : v.all isDig = true) :
    findTok 6 (u ++ '_' :: v) = some (u ++ '_' :: v) := by
  obtain ⟨a, b, c, d, e, f, rfl⟩ := exists_six u hu
  obtain ⟨p, q, r, s, t, w, rfl⟩ := exists_six v hv
  simp at hud hvd
  simp [findTok, tokHere, hud, hvd]

/-- Any token returned by the pattern search splits into `m` digits, an
underscore, and six digits. -/
lemma findTok_structure (m : Nat) (s tok : List Char)
    (h : findTok m s = some tok) :
    ∃ d t, tok = d ++ '_' :: t ∧ d.length = m ∧ d.all isDig = true ∧
      t.length = 6 ∧ t.all isDig = true := by
  induction s with
  | nil => exact absurd h (by simp [findTok])
  | cons c rest ih =>
    rw [findTok] at h
    cases htok : tokHere m (c :: rest) with
    | none => rw [htok] at h; exact ih h
    | some t0 =>
      rw [htok] at h
      simp only [Option.some.injEq] at h
      subst h
      unfold tokHere at htok
      simp only [] at htok
      split at htok
      · rename_i hcond
        simp only [Option.some.injEq] at htok
        obtain ⟨h1, h2, h3, h4, h5⟩ := hcond
        exact ⟨_, _, htok.symm, h1, h2, h4, h5⟩
      · exact absurd htok (by simp)

/-- On a well-formed 8+6 token, the 8-digit branch of the codec returns
exactly the token with its two century digits removed. -/
lemma ts8_eq_drop2 (tok d t : List Char) (htok : tok = d ++ '_' :: t)
    (hd : d.length = 8) : ts8 tok = tok.drop 2 := by
  subst htok
  unfold ts8
  rw [show (8 : Nat) = d.length from hd.symm, List.take_left]
  have h9 : (9 : Nat) = d.length + 1 := by omega
  rw [h9, List.drop_append]
  rw [List.drop_append_eq_append_drop]
  simp [show 2 - d.length = 0 by omega]

/-- C6: whenever a name matches the 8-digit pattern, the decoded year is
2000 plus the token's third and fourth digits, and the decoded instant
is the instant decoded from a name consisting of only the corresponding
6-digit token (the same digits without the century). -/
theorem C6_codec_century (name tok : List Char)
    (h : findTok 8 name = some tok) :
    extract_ts_from_name name = some (ts8 tok) ∧
    extract_ts_from_name (ts8 tok) = some (ts8 tok) ∧
    ∀ dt, nameInstant name = some dt →
      nameInstant (ts8 tok) = some dt ∧
      dt.year = 2000 + digitsToNat ((tok.drop 2).take 2) := by
  obtain ⟨d, t, htok, hdlen, hddig, htlen, htdig⟩ :=
    findTok_structure 8 name tok h
  have hdrop : ts8 tok = tok.drop 2 := ts8_eq_drop2 tok d t htok hdlen
  have hsplit : ts8 tok = d.drop 2 ++ '_' :: t := by
    rw [hdrop, htok, List.drop_append_eq_append_drop]
    simp [show 2 - d.length = 0 by omega]
  have hex1 : extract_ts_from_name name = some (ts8 tok) := by
    unfold extract_ts_from_name
    rw [h]
  have hddig2 : (d.drop 2).all isDig = true := by
    rw [List.all_eq_true] at hddig ⊢
    intro x hx
    exact hddig x (List.mem_of_mem_drop hx)
  have hd2len : (d.drop 2).length = 6 := by
    rw [List.length_drop, hdlen]
  have hex2 : extract_ts_from_name (ts8 tok) = some (ts8 tok) := by
    unfold extract_ts_from_name
    rw [hsplit, findTok8_none _ _ hd2len htlen,
      findTok6_self _ _ hd2len hddig2 htlen htdig]
  refine ⟨hex1, hex2, ?_⟩
  intro dt hdt
  have hdt2 : (ts_to_datetime_utc (ts8 tok)).toOption = some dt := by
    unfold nameInstant at hdt
    rw [hex1] at hdt
    simpa using hdt
  have hinst2 : nameInstant (ts8 tok) = some dt := by
    unfold nameInstant
    rw [hex2]
    simpa using hdt2
  refine ⟨hinst2, ?_⟩
  have hok : ts_to_datetime_utc (ts8 tok) = Except.ok dt := by
    cases hts : ts_to_datetime_utc (ts8 tok) with
    | ok a => rw [hts] at hdt2; simp [Except.toOption] at hdt2; rw [hdt2]
    | error e => rw [hts] at hdt2; simp [Except.toOption] at hdt2
  have := year_of_ok (ts8 tok) dt hok
  rw [hdrop] at this
  exact this

/-- C6 (witness): a concrete name carrying `20251025_142015` decodes to
2025-10-25 14:20:15, the same instant as the bare 6-digit token, with
year 2000 + 25. -/
theorem C6_witness :
    findTok 8 "cam_20251025_142015.jpg".toList =
      some "20251025_142015".toList ∧
    nameInstant "cam_20251025_142015.jpg".toList =
      some ⟨2025, 10, 25, 14, 20, 15⟩ ∧
    nameInstant (ts8 "20251025_142015".toList) =
      some ⟨2025, 10, 25, 14, 20, 15⟩ ∧
    (2025 : Nat) =
      2000 + digitsToNat (("20251025_142015".toList.drop 2).take 2) := by
  have h : findTok 8 "cam_20251025_142015.jpg".toList =
      some "20251025_142015".toList := rfl
  have hinst : nameInstant "cam_20251025_142015.jpg".toList =
      some ⟨2025, 10, 25, 14, 20, 15⟩ := rfl
  have hc := (C6_codec_century _ _ h).2.2 ⟨2025, 10, 25, 14, 20, 15⟩ hinst
  exact ⟨h, hinst, hc.1, hc.2⟩

/-- C10: the century digits of an 8-digit date token are discarded: any
two names whose matched tokens agree after their first two characters
decode to the same instant, and the decoded year is 2000 plus the
token's third and fourth digits. -/
theorem C10_century_digits_ignored (n1 n2 t1 t2 : List Char)
    (h1 : findTok 8 n1 = some t1) (h2 : findTok 8 n2 = some t2)
    (hsame : t1.drop 2 = t2.drop 2) :
    nameInstant n1 = nameInstant n2 ∧
    ∀ dt, nameInstant n1 = some dt →
      dt.year = 2000 + digitsToNat ((t1.drop 2).take 2) := by
  obtain ⟨d1, u1, ht1, hd1len, _, _, _⟩ := findTok_structure 8 n1 t1 h1
  obtain ⟨d2, u2, ht2, hd2len, _, _, _⟩ := findTok_structure 8 n2 t2 h2
  have e1 : ts8 t1 = t1.drop 2 := ts8_eq_drop2 t1 d1 u1 ht1 hd1len
  have e2 : ts8 t2 = t2.drop 2 := ts8_eq_drop2 t2 d2 u2 ht2 hd2len
  have hsame8 : ts8 t1 = ts8 t2 := by rw [e1, e2, hsame]
  have hname1 : nameInstant n1 = (ts_to_datetime_utc (ts8 t1)).toOption := by
    unfold nameInstant extract_ts_from_name
    rw [h1]
  have hname2 : nameInstant n2 = (ts_to_datetime_utc (ts8 t2)).toOption := by
    unfold nameInstant extract_ts_from_name
    rw [h2]
  constructor
  · rw [hname1, hname2, hsame8]
  · intro dt hdt
    rw [hname1] at hdt
    have hok : ts_to_datetime_utc (ts8 t1) = Except.ok dt := by
      cases hts : ts_to_datetime_utc (ts8 t1) with
      | ok a =>
        rw [hts] at hdt; simp [Except.toOption] at hdt; rw [hdt]
      | error e =>
        rw [hts] at hdt; simp [Except.toOption] at hdt
    have := year_of_ok (ts8 t1) dt hok
    rw [e1] at this
    exact this

/-- C10 (witness): `19991025_142015` and `20991025_142015` differ only
in their century digits; both decode to year 2099, the same instant. -/
theorem C10_witness :
    findTok 8 "19991025_142015.jpg".toList = some "19991025_142015".toList ∧
    findTok 8 "20991025_142015.jpg".toList = some "20991025_142015".toList ∧
    nameInstant "19991025_142015.jpg".toList =
      nameInstant "20991025_142015.jpg".toList ∧
    nameInstant "19991025_142015.jpg".toList =
      some ⟨2099, 10, 25, 14, 20, 15⟩ ∧
    (2099 : Nat) =
      2000 + digitsToNat (("19991025_142015".toList.drop 2).take 2) := by
  have h1 : findTok 8 "19991025_142015.jpg".toList =
      some "19991025_142015".toList := rfl
  have h2 : findTok 8 "20991025_142015.jpg".toList =
      some "20991025_142015".toList := rfl
  have hinst : nameInstant "19991025_142015.jpg".toList =
      some ⟨2099, 10, 25, 14, 20, 15⟩ := rfl
  have hc := C10_century_digits_ignored _ _ _ _ h1 h2 rfl
  exact ⟨h1, h2, hc.1, hinst, hc.2 ⟨2099, 10, 25, 14, 20, 15⟩ hinst⟩

end Timelapse
